import Mathlib

/-!
# go-click: a terminal metronome (`metronome.go`)

A shallow embedding of `metronome.go` and the properties of its argument
validation, interval computation, sound staging, playback selection, stop
listener and beat loop.

Conventions of the embedding

* Go `int` is the 64-bit two's complement integer of the usual targets
  (amd64, arm64).  Values are `Int`; every arithmetic result that can leave the
  range goes through `wrapInt`.
* Console output, file operations and process launches are recorded, in
  program order, as a list of `Effect`s.
* What the operating system answers (embedded payloads, temporary files,
  `exec.LookPath`, standard input, how many timer ticks win the `select` before
  the stop message) is a field of `World`.
-/

namespace Metronome

/-! ## Go `int` -/

/-- Smallest value of Go `int` (64 bits). -/
def minInt : Int := -9223372036854775808

/-- Largest value of Go `int` (64 bits). -/
def maxInt : Int := 9223372036854775807

/-- Reduction of a mathematical integer to the 64-bit two's complement value Go
stores (signed overflow wraps around in Go). -/
def wrapInt (x : Int) : Int :=
  (x + 9223372036854775808) % 18446744073709551616 - 9223372036854775808

/-- Go's `/` on `int`, for a non-zero divisor: the quotient truncated toward
zero, stored in an `int`. -/
def goDiv (a b : Int) : Int := wrapInt (Int.tdiv a b)

/-! ## `strconv.Atoi` (standard library) -/

/-- Value of a run of ASCII decimal digits, `none` when a character is not a
digit.  `acc` is the value of the digits read so far. -/
def digitsValue : List Char → Nat → Option Nat
  | [], acc => some acc
  | c :: cs, acc =>
    if 48 ≤ c.toNat ∧ c.toNat ≤ 57 then digitsValue cs (acc * 10 + (c.toNat - 48))
    else none

/-- The function `strconv.Atoi` for a 64-bit `int`: an optional sign, then one
or more decimal digits, the value within the range of `int`.  The result `none`
stands for a non-nil error (syntax or range). -/
def Atoi (s : String) : Option Int :=
  match s.toList with
  | [] => none
  | c :: cs =>
    let ds := if c = '-' ∨ c = '+' then cs else c :: cs
    match ds with
    | [] => none
    | d :: ds' =>
      match digitsValue (d :: ds') 0 with
      | none => none
      | some un =>
        if c = '-' then
          (if un > 9223372036854775808 then none else some (-(un : Int)))
        else
          (if un ≥ 9223372036854775808 then none else some (un : Int))

/-! ## Effects -/

/-- An external command as built by `exec.Command(name, args...)`. -/
structure Cmd where
  name : String
  args : List String
  deriving DecidableEq, Repr

/-- The two package-level handle variables. -/
inductive Handle where
  | clickHiTmp
  | clickLoTmp
  deriving DecidableEq, Repr

/-- An argument of a `fmt.Printf` call. -/
inductive Arg where
  | int (i : Int)
  | err (e : String)
  deriving DecidableEq, Repr

/-- Observable actions of the program, in program order. -/
inductive Effect where
  /-- The call `fmt.Println(s)`. -/
  | println (s : String)
  /-- The call `fmt.Print(s)`. -/
  | print (s : String)
  /-- The call `fmt.Printf(format, args...)`. -/
  | printf (format : String) (args : List Arg)
  /-- A successful `os.CreateTemp` that made the file `name`. -/
  | createTemp (name : String)
  /-- A successful `tmpFile.Write(data)`. -/
  | write (name : String) (data : List Nat)
  /-- The deferred `tmpFile.Close()`. -/
  | close (name : String)
  /-- The call `os.Remove(name)`. -/
  | remove (name : String)
  /-- The call `playClick(h)` with the value of the handle variable `h`;
  `started` is the command on which `cmd.Start()` was called, if any. -/
  | playClick (h : Handle) (started : Option Cmd)
  /-- The statement `go func() ...` that starts the listener. -/
  | goListener
  /-- A successful `time.NewTicker(d)`, `d` in nanoseconds. -/
  | newTicker (d : Int)
  /-- The deferred `ticker.Stop()`. -/
  | tickerStop
  deriving DecidableEq, Repr

/-! ## `initSound` -/

/-- The type `embed.FS` seen through `ReadFile`: the payload of a name, or an
error text. -/
abbrev EmbedFS := String → Except String (List Nat)

/-- What the file system answers during one call of `initSound`. -/
structure TempFiles where
  /-- Result of `os.CreateTemp("", "click*.wav")`: the name of the new file. -/
  createTemp : Except String String
  /-- Result of `tmpFile.Write(data)`. -/
  write : Except String Unit

/-- Result of `initSound`: the value of `*tmp` afterwards, the returned error
(`none` is `nil`) and the effects. -/
structure InitResult where
  tmp : String
  err : Option String
  effects : List Effect

/-- The function `initSound(embedded, wav, tmp)`; `tmp` is the value of `*tmp`
at the call. -/
def initSound (embedded : EmbedFS) (wav : String) (fs : TempFiles) (tmp : String) :
    InitResult :=
  match embedded wav with
  | .error err => ⟨tmp, some ("reading embedded sound: " ++ err), []⟩
  | .ok data =>
    match fs.createTemp with
    | .error err => ⟨tmp, some ("creating temp file: " ++ err), []⟩
    | .ok name =>
      match fs.write with
      | .error err =>
        ⟨tmp, some ("writing temp file: " ++ err),
          [.createTemp name, .remove name, .close name]⟩
      | .ok _ =>
        ⟨name, none, [.createTemp name, .write name data, .close name]⟩

/-! ## `playClick` and `commandExists` -/

/-- The function `commandExists(cmd)`: `exec.LookPath(cmd)` returned no error.
`lookPath` is `exec.LookPath`, `none` standing for an error. -/
def commandExists (lookPath : String → Option String) (cmd : String) : Bool :=
  (lookPath cmd).isSome

/-- The function `playClick(tmp_file)`: the command on which `cmd.Start()` is
called, `none` when the function returns without starting one.  The script
text is the result of
`fmt.Sprintf("(New-Object Media.SoundPlayer \x27%s\x27).PlaySync()", tmp_file)`,
where `\x27` is the single quote. -/
def playClick (lookPath : String → Option String) (tmp_file : String) : Option Cmd :=
  if tmp_file = "" then none
  else if commandExists lookPath "paplay" then some ⟨"paplay", [tmp_file]⟩
  else if commandExists lookPath "aplay" then some ⟨"aplay", [tmp_file]⟩
  else if commandExists lookPath "afplay" then some ⟨"afplay", [tmp_file]⟩
  else if commandExists lookPath "powershell" then
    some ⟨"powershell",
      ["-c", "(New-Object Media.SoundPlayer \x27" ++ tmp_file ++ "\x27).PlaySync()"]⟩
  else none

/-! ## The metronome loop -/

/-- Values the loop reads but never writes: the two handle variables,
`beatsPerMeasure` and `exec.LookPath`. -/
structure Env where
  clickHiTmp : String
  clickLoTmp : String
  beatsPerMeasure : Int
  lookPath : String → Option String

/-- The escape sequence `"\r\033[K"` that clears the current line. -/
def clearLine : String := "\r\x1b[K"

/-- The escape sequence `"\033[?25l"` that hides the cursor. -/
def hideCursor : String := "\x1b[?25l"

/-- The escape sequence `"\033[?25h"` that shows the cursor. -/
def showCursor : String := "\x1b[?25h"

/-- The branch `case <-ticker.C:` of the loop, run with the counter at `beat`:
the new value of `beat` and the effects. -/
def tick (env : Env) (beat : Int) : Int × List Effect :=
  let fx :=
    if beat = 1 then
      [Effect.print clearLine,
       Effect.playClick Handle.clickHiTmp (playClick env.lookPath env.clickHiTmp)]
    else
      [Effect.playClick Handle.clickLoTmp (playClick env.lookPath env.clickLoTmp)]
  let fx := fx ++ [Effect.printf "%d " [Arg.int beat]]
  let beat := wrapInt (beat + 1)
  let beat := if beat > env.beatsPerMeasure then 1 else beat
  (beat, fx)

/-- The branch `case <-stop:` of the loop, up to its `return`. -/
def stopBranch : List Effect :=
  [Effect.print showCursor, Effect.println "\nMetronome stopped."]

/-- Control state of the loop: waiting in `select` with the counter at `beat`,
or left through `return`. -/
inductive State where
  | Running (beat : Int)
  | Stopped
  deriving DecidableEq, Repr

/-- The channel whose case the `select` takes. -/
inductive Event where
  | tick
  | stop
  deriving DecidableEq, Repr

/-- One iteration of `for { select { ... } }`.  No iteration starts once the
loop has returned. -/
def step (env : Env) : State → Event → Option (State × List Effect)
  | .Running _, .stop => some (.Stopped, stopBranch)
  | .Running beat, .tick => some (.Running (tick env beat).1, (tick env beat).2)
  | .Stopped, _ => none

/-- The loop run on a sequence of `select` outcomes: the state reached and the
effects.  Events left over after the `return` are not consumed. -/
def run (env : Env) : State → List Event → State × List Effect
  | s, [] => (s, [])
  | s, e :: es =>
    match step env s e with
    | none => (s, [])
    | some (s', fx) => ((run env s' es).1, fx ++ (run env s' es).2)

/-- The counter after `k` ticks of a loop started at `beat := 1`. -/
def beatAfter (env : Env) : Nat → Int
  | 0 => 1
  | k + 1 => (tick env (beatAfter env k)).1

/-- The beat label an effect prints: the argument of a
`fmt.Printf("%d ", beat)`. -/
def label? : Effect → Option Int
  | Effect.printf format [Arg.int b] => if format = "%d " then some b else none
  | _ => none

/-- Beat labels printed by a list of effects, in order. -/
def labels (fx : List Effect) : List Int := fx.filterMap label?

/-! ## The stop listener -/

/-- The listener goroutine: `reader.ReadString` up to the next newline, followed
by `stop <- true`.  `read` is what `ReadString` returns, a line or an error, and
`none` when the call is still blocked; both results of the call are discarded
by the source.  The value tells whether the goroutine reaches the send. -/
def listener (read : Option (Except String String)) : Bool :=
  match read with
  | none => false
  | some _ => true

/-! ## `main` -/

def clickHiWav : String := "click_hi.wav"

def clickLoWav : String := "click_lo.wav"

/-- Nanoseconds in `time.Millisecond`. -/
def Millisecond : Int := 1000000

/-- The statement `interval := time.Duration(60000/bpm) * time.Millisecond`:
a `time.Duration`, that is an `int64` count of nanoseconds. -/
def interval (bpm : Int) : Int := wrapInt (goDiv 60000 bpm * Millisecond)

/-- What the environment answers during one run. -/
structure World where
  clickHiSound : EmbedFS
  clickLoSound : EmbedFS
  /-- Temporary file operations of the first `initSound` call. -/
  tempHi : TempFiles
  /-- Temporary file operations of the second `initSound` call. -/
  tempLo : TempFiles
  /-- The function `exec.LookPath`, `none` standing for an error. -/
  lookPath : String → Option String
  /-- What `reader.ReadString` returns in the listener, `none` when it stays
  blocked for the whole observation. -/
  stdin : Option (Except String String)
  /-- Number of times the `select` takes the ticker case before it takes the
  stop case (or before the observation ends, when no stop is sent). -/
  ticks : Nat

/-- How an observation of `main` ends. -/
inductive Outcome where
  /-- The call `os.Exit(code)`. -/
  | exited (code : Int)
  /-- A run-time panic (the process ends with status 2). -/
  | panicked (msg : String)
  /-- The loop is waiting in `select` with the counter at `beat`. -/
  | waiting (beat : Int)
  /-- The function `main` returned (status 0). -/
  | returned
  deriving DecidableEq, Repr

/-- The `select` outcomes of one run: the ticks that win before the stop
message, then the stop message if the listener sends one. -/
def events (w : World) : List Event :=
  List.replicate w.ticks Event.tick ++ (if listener w.stdin then [Event.stop] else [])

/-- The block under `// Metronome loop`: `beat := 1`, the ticker (the
constructor `time.NewTicker` panics on a non-positive duration), the deferred
`ticker.Stop()` and the `for`/`select` loop. -/
def metronomeLoop (env : Env) (d : Int) (evs : List Event) : List Effect × Outcome :=
  if d ≤ 0 then ([], Outcome.panicked "non-positive interval for NewTicker")
  else
    match run env (State.Running 1) evs with
    | (State.Stopped, fx) => (Effect.newTicker d :: fx ++ [Effect.tickerStop], Outcome.returned)
    | (State.Running beat, fx) => (Effect.newTicker d :: fx, Outcome.waiting beat)

/-- The functions deferred by `main` before the loop, in the order they run:
show the cursor, remove the regular click file, remove the accent click
file. -/
def deferred (clickHiTmp clickLoTmp : String) : List Effect :=
  [Effect.print showCursor]
    ++ (if clickLoTmp ≠ "" then [Effect.remove clickLoTmp] else [])
    ++ (if clickHiTmp ≠ "" then [Effect.remove clickHiTmp] else [])

/-- The statement `fmt.Printf("Warning: Could not initialize sound (%v)\n", err)`. -/
def warningOf (e : String) : Effect :=
  Effect.printf "Warning: Could not initialize sound (%v)\n" [Arg.err e]

/-- The warning of `main` after an `initSound` call: printed when the returned
error is not `nil`. -/
def warning (err : Option String) : List Effect :=
  match err with
  | some e => [warningOf e]
  | none => []

/-- The first staging call, `initSound(clickHiSound, clickHiWav, &clickHiTmp)`;
the handle variable starts as the empty string. -/
def stageHi (w : World) : InitResult :=
  initSound w.clickHiSound clickHiWav w.tempHi ""

/-- The second staging call, `initSound(clickLoSound, clickLoWav, &clickLoTmp)`;
the handle variable starts as the empty string. -/
def stageLo (w : World) : InitResult :=
  initSound w.clickLoSound clickLoWav w.tempLo ""

/-- What the loop reads: the handle variables as the staging left them,
`beatsPerMeasure` and `exec.LookPath`. -/
def loopEnv (w : World) (beatsPerMeasure : Int) : Env :=
  ⟨(stageHi w).tmp, (stageLo w).tmp, beatsPerMeasure, w.lookPath⟩

/-- The effects of `main` between the validation and the metronome loop
block: staging of the two sounds with their warnings, banner, prompt, hidden
cursor, start of the listener. -/
def setup (w : World) (beatsPerMeasure bpm : Int) : List Effect :=
  (stageHi w).effects ++ warning (stageHi w).err
    ++ (stageLo w).effects ++ warning (stageLo w).err
    ++ [Effect.printf "Metronome: %d beats per measure at %d BPM\n"
          [Arg.int beatsPerMeasure, Arg.int bpm],
        Effect.println "Press Enter to stop...",
        Effect.println "",
        Effect.print hideCursor,
        Effect.goListener]

/-- The part of `main` after the validation of the arguments: interval,
staging of the two sounds, banner, listener and metronome loop; the deferred
functions run when the loop block returns or panics. -/
def mainBody (w : World) (beatsPerMeasure bpm : Int) : List Effect × Outcome :=
  let d := interval bpm
  let r := metronomeLoop (loopEnv w beatsPerMeasure) d (events w)
  match r.2 with
  | Outcome.waiting beat => (setup w beatsPerMeasure bpm ++ r.1, Outcome.waiting beat)
  | out =>
    (setup w beatsPerMeasure bpm ++ r.1 ++ deferred (stageHi w).tmp (stageLo w).tmp, out)

/-- The function `main`, `osArgs` being `os.Args` (program name first). -/
def main (w : World) (osArgs : List String) : List Effect × Outcome :=
  if osArgs.length ≠ 3 then
    ([Effect.println "Usage: metronome <beats_per_measure> <bpm>",
      Effect.println "Example: metronome 4 120"], Outcome.exited 1)
  else
    match Atoi (osArgs.getD 1 "") with
    | none =>
      ([Effect.println "Error: beats_per_measure must be a positive integer"],
        Outcome.exited 1)
    | some beatsPerMeasure =>
      if beatsPerMeasure ≤ 0 then
        ([Effect.println "Error: beats_per_measure must be a positive integer"],
          Outcome.exited 1)
      else
        match Atoi (osArgs.getD 2 "") with
        | none =>
          ([Effect.println "Error: bpm must be a positive integer"], Outcome.exited 1)
        | some bpm =>
          if bpm ≤ 0 then
            ([Effect.println "Error: bpm must be a positive integer"], Outcome.exited 1)
          else mainBody w beatsPerMeasure bpm

/-! ## Predicates and sample inputs of the statements -/

/-- The range predicate on the beat counter: `1 ≤ beat ≤ beatsPerMeasure`. -/
def BeatInv (env : Env) (beat : Int) : Prop :=
  1 ≤ beat ∧ beat ≤ env.beatsPerMeasure

instance (env : Env) (beat : Int) : Decidable (BeatInv env beat) := by
  unfold BeatInv; infer_instance

/-- A loop environment with the largest `beatsPerMeasure` the validation lets
through, `strconv.Atoi("9223372036854775807")`. -/
def envMax : Env := ⟨"", "", 9223372036854775807, fun _ => none⟩

/-- A loop environment with four beats per measure and no player installed. -/
def env4 : Env := ⟨"", "", 4, fun _ => none⟩

/-- The players `playClick` probes, in the order of its `switch`. -/
def players : List String := ["paplay", "aplay", "afplay", "powershell"]

/-- The command line of a player for a handle, as the specification words it: the
handle as single argument, except for `powershell`, which gets `-c` and the
`SoundPlayer` script with the handle between single quotes. -/
def commandFor (player handle : String) : Cmd :=
  if player = "powershell" then
    ⟨player, ["-c", "(New-Object Media.SoundPlayer \x27" ++ handle ++ "\x27).PlaySync()"]⟩
  else ⟨player, [handle]⟩

/-- An argument that `strconv.Atoi` parses to a value above zero. -/
def validArg (s : String) : Bool :=
  match Atoi s with
  | some v => decide (0 < v)
  | none => false

/-- A world in which both sounds stage, `aplay` is installed, the user presses
Enter and five ticks win the `select` before the stop message. -/
def worldEnter : World :=
  { clickHiSound := fun _ => Except.ok [82, 73, 70, 70]
    clickLoSound := fun _ => Except.ok [82, 73, 70, 70]
    tempHi := ⟨Except.ok "/tmp/click1.wav", Except.ok ()⟩
    tempLo := ⟨Except.ok "/tmp/click2.wav", Except.ok ()⟩
    lookPath := fun s => if s = "aplay" then some "/usr/bin/aplay" else none
    stdin := some (Except.ok "\n")
    ticks := 5 }

/-- A result that is an error. -/
def failed {α : Type} : Except String α → Bool
  | Except.error _ => true
  | Except.ok _ => false

/-- One of the three operations of an `initSound` call fails: the read of the
embedded payload, the creation of the temporary file, or the write. -/
def stagingFails (embedded : EmbedFS) (wav : String) (fs : TempFiles) : Bool :=
  failed (embedded wav) || failed fs.createTemp || failed fs.write

/-- An effect that starts an external process. -/
def startsProcess : Effect → Bool
  | Effect.playClick _ (some _) => true
  | _ => false

/-- A world in which the temporary directory is not writable: neither sound
stages; `aplay` is installed. -/
def worldNoTemp : World :=
  { clickHiSound := fun _ => Except.ok [82, 73, 70, 70]
    clickLoSound := fun _ => Except.ok [82, 73, 70, 70]
    tempHi := ⟨Except.error "permission denied", Except.ok ()⟩
    tempLo := ⟨Except.error "permission denied", Except.ok ()⟩
    lookPath := fun s => if s = "aplay" then some "/usr/bin/aplay" else none
    stdin := some (Except.ok "\n")
    ticks := 5 }

/-- A world in which standard input is closed: `ReadString` returns the error
`EOF` at once; three ticks win the `select` before the stop message. -/
def worldClosedStdin : World :=
  { clickHiSound := fun _ => Except.ok [82, 73, 70, 70]
    clickLoSound := fun _ => Except.ok [82, 73, 70, 70]
    tempHi := ⟨Except.ok "/tmp/click1.wav", Except.ok ()⟩
    tempLo := ⟨Except.ok "/tmp/click2.wav", Except.ok ()⟩
    lookPath := fun _ => none
    stdin := some (Except.error "EOF")
    ticks := 3 }

/-! ## Arithmetic of the counter -/

theorem wrapInt_of_range (x : Int) (h1 : minInt ≤ x) (h2 : x ≤ maxInt) : wrapInt x = x := by
  unfold minInt at h1
  unfold maxInt at h2
  unfold wrapInt
  omega

theorem tick_fst (env : Env) (beat : Int) :
    (tick env beat).1 =
      if wrapInt (beat + 1) > env.beatsPerMeasure then 1 else wrapInt (beat + 1) := rfl

theorem tick_labels (env : Env) (beat : Int) : labels (tick env beat).2 = [beat] := by
  unfold tick
  by_cases h : beat = 1 <;> simp [h, labels, label?]

theorem tick_fst_of_inv (env : Env) (beat : Int) (hlt : env.beatsPerMeasure < maxInt)
    (hb : BeatInv env beat) :
    (tick env beat).1 = if beat + 1 > env.beatsPerMeasure then 1 else beat + 1 := by
  obtain ⟨h1, h2⟩ := hb
  have hw : wrapInt (beat + 1) = beat + 1 := by
    apply wrapInt_of_range
    · unfold minInt; omega
    · omega
  rw [tick_fst, hw]

theorem succ_emod (a n : Int) (hn : 0 < n) :
    (a + 1) % n = if a % n + 1 = n then 0 else a % n + 1 := by
  have hr0 : 0 ≤ a % n := Int.emod_nonneg a (by omega)
  have hrn : a % n < n := Int.emod_lt_of_pos a hn
  have hsplit : a + 1 = (a % n + 1) + n * (a / n) := by
    have := Int.emod_add_ediv a n
    omega
  rw [hsplit, Int.add_mul_emod_self_left]
  by_cases h : a % n + 1 = n
  · rw [if_pos h, h, Int.emod_self]
  · rw [if_neg h]
    exact Int.emod_eq_of_lt (by omega) (by omega)

theorem beatAfter_eq (env : Env) (k : Nat) (hN : 0 < env.beatsPerMeasure)
    (hlt : env.beatsPerMeasure < maxInt) :
    beatAfter env k = (k : Int) % env.beatsPerMeasure + 1 := by
  induction k with
  | zero => simp [beatAfter]
  | succ k ih =>
    have hr0 : 0 ≤ (k : Int) % env.beatsPerMeasure := Int.emod_nonneg _ (by omega)
    have hrn : (k : Int) % env.beatsPerMeasure < env.beatsPerMeasure :=
      Int.emod_lt_of_pos _ hN
    have hinv : BeatInv env (beatAfter env k) := by
      rw [ih]; constructor <;> omega
    show (tick env (beatAfter env k)).1 = _
    rw [tick_fst_of_inv env _ hlt hinv, ih]
    push_cast
    rw [succ_emod _ _ hN]
    by_cases h : (k : Int) % env.beatsPerMeasure + 1 = env.beatsPerMeasure
    · rw [if_pos h, if_pos (by omega)]; simp
    · rw [if_neg h, if_neg (by omega)]

theorem run_ticks (env : Env) (k : Nat) (b : Int) :
    run env (State.Running b) (List.replicate (k + 1) Event.tick) =
      ((run env (State.Running (tick env b).1) (List.replicate k Event.tick)).1,
        (tick env b).2 ++ (run env (State.Running (tick env b).1)
          (List.replicate k Event.tick)).2) := rfl

theorem labels_append (xs ys : List Effect) : labels (xs ++ ys) = labels xs ++ labels ys := by
  unfold labels
  exact List.filterMap_append xs ys label?

theorem beatAfter_iterate (env : Env) (k : Nat) :
    beatAfter env k = (fun b => (tick env b).1)^[k] 1 := by
  induction k with
  | zero => rfl
  | succ k ih =>
    rw [Function.iterate_succ_apply']
    show (tick env (beatAfter env k)).1 = _
    rw [ih]

theorem run_replicate (env : Env) (k : Nat) (b : Int) :
    (run env (State.Running b) (List.replicate k Event.tick)).1
        = State.Running ((fun b => (tick env b).1)^[k] b)
      ∧ labels (run env (State.Running b) (List.replicate k Event.tick)).2
        = (List.range k).map (fun i => (fun b => (tick env b).1)^[i] b) := by
  induction k generalizing b with
  | zero => exact ⟨rfl, rfl⟩
  | succ k ih =>
    obtain ⟨h1, h2⟩ := ih (tick env b).1
    rw [run_ticks]
    refine ⟨?_, ?_⟩
    · simpa [Function.iterate_succ_apply] using h1
    · simp only [labels_append, tick_labels, h2, List.range_succ_eq_map, List.map_cons,
        List.map_map, Function.iterate_zero, id_eq, List.singleton_append]
      rfl

theorem beatAfter_small (env : Env) (k : Nat) (hN : env.beatsPerMeasure ≤ maxInt)
    (hk : (k : Int) < env.beatsPerMeasure) : beatAfter env k = (k : Int) + 1 := by
  induction k with
  | zero => simp [beatAfter]
  | succ k ih =>
    have ihk := ih (by push_cast at hk; omega)
    show (tick env (beatAfter env k)).1 = _
    have hw : wrapInt ((k : Int) + 1 + 1) = (k : Int) + 1 + 1 := by
      apply wrapInt_of_range
      · unfold minInt; omega
      · push_cast at hk; omega
    rw [tick_fst, ihk, hw, if_neg (by push_cast at hk; omega)]
    push_cast
    ring

theorem run_inv (env : Env) (hlt : env.beatsPerMeasure < maxInt) (evs : List Event) :
    ∀ b0 b : Int, BeatInv env b0 → (run env (State.Running b0) evs).1 = State.Running b →
      BeatInv env b := by
  induction evs with
  | nil =>
    intro b0 b h0 h
    have : b0 = b := by simpa [run] using h
    exact this ▸ h0
  | cons e es ih =>
    intro b0 b h0 h
    cases e with
    | stop =>
      cases es with
      | nil => simp [run, step] at h
      | cons e2 es2 => simp [run, step] at h
    | tick =>
      have hstep : BeatInv env (tick env b0).1 := by
        rw [tick_fst_of_inv env b0 hlt h0]
        obtain ⟨h1, h2⟩ := h0
        by_cases hc : b0 + 1 > env.beatsPerMeasure
        · rw [if_pos hc]; exact ⟨le_refl 1, by omega⟩
        · rw [if_neg hc]; exact ⟨by omega, by omega⟩
      exact ih (tick env b0).1 b hstep (by simpa [run, step] using h)

/-! ## Properties of the beat counter -/

/-- C1, for `beatsPerMeasure` below the largest `int`: with
`0 < beatsPerMeasure < 2^63 - 1`, after `k` ticks from `beat := 1` the loop is
at the counter `beatAfter env k`, the tick processed next prints the label
`(k mod beatsPerMeasure) + 1`, and the labels printed by the first `k` ticks
are `(i mod beatsPerMeasure) + 1` for `i = 0, ..., k - 1`. -/
theorem labels_cycle (env : Env) (k : Nat) (hN : 0 < env.beatsPerMeasure)
    (hlt : env.beatsPerMeasure < maxInt) :
    (run env (State.Running 1) (List.replicate k Event.tick)).1
        = State.Running (beatAfter env k)
      ∧ labels (tick env (beatAfter env k)).2 = [(k : Int) % env.beatsPerMeasure + 1]
      ∧ labels (run env (State.Running 1) (List.replicate k Event.tick)).2
        = (List.range k).map (fun (i : Nat) => (i : Int) % env.beatsPerMeasure + 1) := by
  obtain ⟨h1, h2⟩ := run_replicate env k 1
  refine ⟨?_, ?_, ?_⟩
  · rw [h1, beatAfter_iterate]
  · rw [tick_labels, beatAfter_eq env k hN hlt]
  · rw [h2]
    apply List.map_congr_left
    intro i _
    rw [← beatAfter_iterate, beatAfter_eq env i hN hlt]

/-- Instance of C1 for four beats per measure: the first eight labels are
1 2 3 4 1 2 3 4. -/
theorem labels_cycle_witness :
    0 < env4.beatsPerMeasure ∧ env4.beatsPerMeasure < maxInt
      ∧ labels (run env4 (State.Running 1) (List.replicate 8 Event.tick)).2
        = [1, 2, 3, 4, 1, 2, 3, 4] :=
  ⟨by decide, by decide, (labels_cycle env4 8 (by decide) (by decide)).2.2.trans (by decide)⟩

/-- C1 fails at `beatsPerMeasure = 2^63 - 1`: the tick after the first
`2^63 - 1` ticks prints `-9223372036854775808`, while
`((2^63 - 1) mod (2^63 - 1)) + 1 = 1`; the increment of `beat` wrapped
around. -/
theorem labels_wrap_at_maxInt :
    0 < envMax.beatsPerMeasure
      ∧ labels (tick envMax (beatAfter envMax 9223372036854775807)).2
        = [-9223372036854775808]
      ∧ labels (tick envMax (beatAfter envMax 9223372036854775807)).2
        ≠ [((9223372036854775807 : Nat) : Int) % envMax.beatsPerMeasure + 1] := by
  have hk : (9223372036854775807 : Nat) = 9223372036854775806 + 1 := by norm_num
  have hprev : beatAfter envMax 9223372036854775806 = 9223372036854775807 := by
    rw [beatAfter_small envMax 9223372036854775806 (by unfold envMax maxInt; norm_num)
      (by unfold envMax; norm_num)]
    norm_num
  have hnow : beatAfter envMax 9223372036854775807 = -9223372036854775808 := by
    rw [hk]
    show (tick envMax (beatAfter envMax 9223372036854775806)).1 = _
    rw [hprev, tick_fst]
    unfold wrapInt envMax
    norm_num
  refine ⟨by unfold envMax; norm_num, ?_, ?_⟩
  · rw [tick_labels, hnow]
  · rw [tick_labels, hnow]
    unfold envMax
    norm_num

/-- C2, for `beatsPerMeasure` below the largest `int`: with
`0 < beatsPerMeasure < 2^63 - 1` the predicate `1 ≤ beat ≤ beatsPerMeasure`
holds at `beat := 1`, every tick preserves it, and it holds in every state the
loop reaches from `beat := 1`. -/
theorem beat_invariant (env : Env) (hN : 0 < env.beatsPerMeasure)
    (hlt : env.beatsPerMeasure < maxInt) :
    BeatInv env 1
      ∧ (∀ beat, BeatInv env beat → BeatInv env (tick env beat).1)
      ∧ (∀ (evs : List Event) (beat : Int),
          (run env (State.Running 1) evs).1 = State.Running beat → BeatInv env beat) := by
  have h1 : BeatInv env 1 := ⟨le_refl 1, by omega⟩
  refine ⟨h1, ?_, ?_⟩
  · intro beat hb
    exact run_inv env hlt [Event.tick] beat (tick env beat).1 hb rfl
  · intro evs beat h
    exact run_inv env hlt evs 1 beat h1 h

/-- Instance of C2 for four beats per measure: the tick at `beat = 4` goes
back to `1`. -/
theorem beat_invariant_witness :
    0 < env4.beatsPerMeasure ∧ env4.beatsPerMeasure < maxInt
      ∧ BeatInv env4 (tick env4 4).1 :=
  ⟨by decide, by decide,
    (beat_invariant env4 (by decide) (by decide)).2.1 4 (by decide)⟩

/-- C2 fails at `beatsPerMeasure = 2^63 - 1`: the state `beat = 2^63 - 1`
satisfies `1 ≤ beat ≤ beatsPerMeasure`, and the tick taken there leaves
`beat = -9223372036854775808`. -/
theorem beat_invariant_broken_at_maxInt :
    0 < envMax.beatsPerMeasure
      ∧ BeatInv envMax 9223372036854775807
      ∧ (tick envMax 9223372036854775807).1 = -9223372036854775808
      ∧ ¬ BeatInv envMax (tick envMax 9223372036854775807).1 := by
  have ht : (tick envMax 9223372036854775807).1 = -9223372036854775808 := by
    rw [tick_fst]
    unfold wrapInt envMax
    norm_num
  refine ⟨by unfold envMax; norm_num, by unfold BeatInv envMax; norm_num, ht, ?_⟩
  rw [ht]
  unfold BeatInv
  norm_num

/-! ## The interval -/

theorem goDiv_bpm (bpm : Int) (h : 0 < bpm) :
    goDiv 60000 bpm = 60000 / bpm ∧ 0 ≤ (60000 : Int) / bpm ∧ (60000 : Int) / bpm ≤ 60000 := by
  have h0 : 0 ≤ (60000 : Int) / bpm := Int.ediv_nonneg (by norm_num) h.le
  have h1 : (60000 : Int) / bpm ≤ 60000 := Int.ediv_le_self bpm (by norm_num)
  refine ⟨?_, h0, h1⟩
  unfold goDiv
  rw [Int.tdiv_eq_ediv (by norm_num) h.le]
  apply wrapInt_of_range
  · unfold minInt; omega
  · unfold maxInt; omega

theorem interval_eq (bpm : Int) (h : 0 < bpm) : interval bpm = 60000 / bpm * Millisecond := by
  obtain ⟨hd, h0, h1⟩ := goDiv_bpm bpm h
  unfold interval
  rw [hd]
  apply wrapInt_of_range
  · unfold minInt Millisecond; omega
  · unfold maxInt Millisecond; omega

/-- C3: for every `bpm > 0` the interval computed by `main` is
`floor(60000 / bpm)` milliseconds; `bpm = 120` gives 500 ms and `bpm = 90`
gives 666 ms. -/
theorem interval_floor (bpm : Int) (h : 0 < bpm) :
    interval bpm = ⌊(60000 : ℚ) / (bpm : ℚ)⌋ * Millisecond
      ∧ interval 120 = 500 * Millisecond
      ∧ interval 90 = 666 * Millisecond := by
  refine ⟨?_, by decide, by decide⟩
  rw [interval_eq bpm h]
  obtain ⟨n, rfl⟩ := Int.eq_ofNat_of_zero_le h.le
  have hf := Rat.floor_intCast_div_natCast 60000 n
  have hc : ((60000 : ℤ) : ℚ) / (n : ℚ) = (60000 : ℚ) / (((n : ℤ)) : ℚ) := by
    push_cast
    rfl
  rw [← hc, hf]

/-- Instance of C3 at `bpm = 7`: 8571 ms, the floor of 8571.43. -/
theorem interval_floor_witness :
    (0 : Int) < 7 ∧ interval 7 = ⌊(60000 : ℚ) / ((7 : Int) : ℚ)⌋ * Millisecond
      ∧ interval 7 = 8571 * Millisecond :=
  ⟨by decide, (interval_floor 7 (by decide)).1, by decide⟩

/-! ## One tick -/

/-- C4: a tick taken at `beat = 1` clears the line, calls `playClick` with
`clickHiTmp` and never with `clickLoTmp`; a tick taken at any other `beat`
calls `playClick` with `clickLoTmp`, never with `clickHiTmp`, and clears no
line; a tick calls `playClick` with `clickHiTmp` exactly when the label it
prints is 1. -/
theorem tick_accent (env : Env) (beat : Int) :
    (beat = 1 →
        (tick env beat).2 =
          [Effect.print clearLine,
           Effect.playClick Handle.clickHiTmp (playClick env.lookPath env.clickHiTmp),
           Effect.printf "%d " [Arg.int 1]]
        ∧ ∀ c, Effect.playClick Handle.clickLoTmp c ∉ (tick env beat).2)
      ∧ (beat ≠ 1 →
        (tick env beat).2 =
          [Effect.playClick Handle.clickLoTmp (playClick env.lookPath env.clickLoTmp),
           Effect.printf "%d " [Arg.int beat]]
        ∧ (∀ c, Effect.playClick Handle.clickHiTmp c ∉ (tick env beat).2)
        ∧ Effect.print clearLine ∉ (tick env beat).2)
      ∧ ((∃ c, Effect.playClick Handle.clickHiTmp c ∈ (tick env beat).2)
          ↔ labels (tick env beat).2 = [1]) := by
  refine ⟨?_, ?_, ?_⟩
  · intro h
    subst h
    simp [tick]
  · intro h
    simp [tick, h]
  · rw [tick_labels]
    by_cases h : beat = 1
    · subst h
      simp [tick]
    · simp [tick, h]

/-! ## Stop -/

theorem run_stopped (env : Env) (evs : List Event) :
    run env State.Stopped evs = (State.Stopped, []) := by
  cases evs <;> rfl

theorem run_tick_cons (env : Env) (beat : Int) (es : List Event) :
    run env (State.Running beat) (Event.tick :: es) =
      ((run env (State.Running (tick env beat).1) es).1,
        (tick env beat).2 ++ (run env (State.Running (tick env beat).1) es).2) := rfl

theorem run_until_stop (env : Env) (pre post : List Event) :
    ∀ beat : Int,
      (run env (State.Running beat) (pre ++ Event.stop :: post)).1 = State.Stopped
        ∧ run env (State.Running beat) (pre ++ Event.stop :: post)
          = run env (State.Running beat) (pre ++ [Event.stop]) := by
  induction pre with
  | nil =>
    intro beat
    simp [run, step, run_stopped]
  | cons e es ih =>
    intro beat
    cases e with
    | stop => simp [run, step, run_stopped]
    | tick =>
      obtain ⟨h1, h2⟩ := ih (tick env beat).1
      rw [List.cons_append, List.cons_append, run_tick_cons, run_tick_cons, h2]
      exact ⟨by rw [← h2]; exact h1, rfl⟩

/-- C6: from every state `Running beat` the stop event prints the
cursor-restore sequence and the line "Metronome stopped." and leads to
`Stopped`; no step is taken from `Stopped`, whatever the event; run from
`Stopped`, the loop has no effect and stays there; and whatever events follow
the first stop of a run, state and effects are those of the run that ends at
that stop. -/
theorem stop_is_terminal (env : Env) (beat : Int) :
    step env (State.Running beat) Event.stop
        = some (State.Stopped,
            [Effect.print showCursor, Effect.println "\nMetronome stopped."])
      ∧ (∀ e, step env State.Stopped e = none)
      ∧ (∀ evs, run env State.Stopped evs = (State.Stopped, []))
      ∧ (∀ pre post,
          (run env (State.Running beat) (pre ++ Event.stop :: post)).1 = State.Stopped
            ∧ run env (State.Running beat) (pre ++ Event.stop :: post)
              = run env (State.Running beat) (pre ++ [Event.stop])) :=
  ⟨rfl, fun e => by cases e <;> rfl, run_stopped env,
    fun pre post => run_until_stop env pre post beat⟩

/-! ## Playback -/

/-- C7: for every handle and every answer of `exec.LookPath`, `playClick`
starts no process when the handle is empty, and otherwise starts exactly the
command of the first player, in the order paplay, aplay, afplay, powershell,
that `commandExists` reports, or none when it reports none of them. -/
theorem playClick_first_available (lookPath : String → Option String) (handle : String) :
    playClick lookPath handle =
      if handle = "" then none
      else (players.find? (commandExists lookPath)).map (fun p => commandFor p handle) := by
  unfold playClick players commandFor
  by_cases h0 : handle = ""
  · simp [h0]
  · by_cases h1 : commandExists lookPath "paplay" = true
    · simp [h0, h1, List.find?]
    · by_cases h2 : commandExists lookPath "aplay" = true
      · simp [h0, h1, h2, List.find?]
      · by_cases h3 : commandExists lookPath "afplay" = true
        · simp [h0, h1, h2, h3, List.find?]
        · by_cases h4 : commandExists lookPath "powershell" = true
          · simp [h0, h1, h2, h3, h4, List.find?]
          · simp [h0, h1, h2, h3, h4, List.find?]

/-! ## Validation of the arguments -/

theorem validArg_iff (s : String) : validArg s = true ↔ ∃ v, Atoi s = some v ∧ 0 < v := by
  unfold validArg
  cases h : Atoi s with
  | none => simp
  | some v => simp

theorem metronomeLoop_not_exited (env : Env) (d : Int) (evs : List Event) (c : Int) :
    (metronomeLoop env d evs).2 ≠ Outcome.exited c := by
  unfold metronomeLoop
  by_cases hd : d ≤ 0
  · simp [hd]
  · rw [if_neg hd]
    split <;> simp

theorem mainBody_outcome (w : World) (beatsPerMeasure bpm : Int) :
    (mainBody w beatsPerMeasure bpm).2
      = (metronomeLoop (loopEnv w beatsPerMeasure) (interval bpm) (events w)).2 := by
  unfold mainBody
  simp only
  split
  · next beat h => rw [h]
  · rfl

theorem mainBody_not_exited (w : World) (beatsPerMeasure bpm c : Int) :
    (mainBody w beatsPerMeasure bpm).2 ≠ Outcome.exited c := by
  rw [mainBody_outcome]
  exact metronomeLoop_not_exited _ _ _ c

theorem main_two_args (w : World) (prog a b : String) :
    (validArg a = true → validArg b = true →
        ∃ x y, Atoi a = some x ∧ Atoi b = some y ∧ 0 < x ∧ 0 < y
          ∧ main w [prog, a, b] = mainBody w x y)
      ∧ (validArg a = false ∨ validArg b = false →
          (main w [prog, a, b]).2 = Outcome.exited 1
            ∧ ∀ e ∈ (main w [prog, a, b]).1, ∃ s, e = Effect.println s) := by
  unfold validArg main
  cases ha : Atoi a with
  | none => simp [ha]
  | some x =>
    cases hb : Atoi b with
    | none => by_cases hx : x ≤ 0 <;> simp [ha, hb, hx]
    | some y =>
      by_cases hx : x ≤ 0
      · simp [ha, hb, hx]
      · by_cases hy : y ≤ 0
        · simp [ha, hb, hx, hy]
        · simp [ha, hb, hx, hy, not_le.mp hx, not_le.mp hy]

/-- C5: `main` ends with `os.Exit(1)` exactly when the number of positional
arguments is not 2, or the first or the second argument is not parsed by
`strconv.Atoi` to a value above zero; in that case it has printed messages and
done nothing else (no staging, no listener, no ticker); otherwise it goes on,
with the two parsed values, to the rest of `main`: staging, banner, listener and
the metronome loop block. -/
theorem main_validation (w : World) (prog : String) (pos : List String) :
    ((main w (prog :: pos)).2 = Outcome.exited 1
        ↔ pos.length ≠ 2
          ∨ ∃ a b, pos = [a, b] ∧ (validArg a = false ∨ validArg b = false))
      ∧ ((main w (prog :: pos)).2 = Outcome.exited 1 →
          ∀ e ∈ (main w (prog :: pos)).1, ∃ s, e = Effect.println s)
      ∧ (∀ a b, pos = [a, b] → validArg a = true → validArg b = true →
          ∃ x y, Atoi a = some x ∧ Atoi b = some y ∧ 0 < x ∧ 0 < y
            ∧ main w (prog :: pos) = mainBody w x y) := by
  match pos with
  | [] => simp [main]
  | [a] => simp [main]
  | a :: b :: c :: rest => simp [main]
  | [a, b] =>
    obtain ⟨hgood, hbad⟩ := main_two_args w prog a b
    by_cases hv : validArg a = true ∧ validArg b = true
    · obtain ⟨x, y, hx, hy, hx0, hy0, hm⟩ := hgood hv.1 hv.2
      refine ⟨?_, ?_, ?_⟩
      · rw [hm]
        simp [mainBody_not_exited, hv.1, hv.2]
      · intro h
        rw [hm] at h
        exact absurd h (mainBody_not_exited w x y 1)
      · intro a2 b2 hp _ _
        simp only [List.cons.injEq, and_true] at hp
        obtain ⟨rfl, rfl⟩ := hp
        exact ⟨x, y, hx, hy, hx0, hy0, hm⟩
    · have hv2 : validArg a = false ∨ validArg b = false := by
        by_cases h1 : validArg a = true
        · right
          simpa [h1] using hv
        · left
          simpa using h1
      obtain ⟨hexit, hfx⟩ := hbad hv2
      refine ⟨?_, fun _ => hfx, ?_⟩
      · simp only [hexit, List.length_cons, List.length_nil, true_iff]
        right
        exact ⟨a, b, rfl, hv2⟩
      · intro a2 b2 hp h1 h2
        simp only [List.cons.injEq, and_true] at hp
        obtain ⟨rfl, rfl⟩ := hp
        exact absurd ⟨h1, h2⟩ hv

/-- Instances of C5: `metronome 4 120` goes on to the rest of `main` with the
values 4 and 120; `metronome 0 120`, `metronome -3 120`, `metronome 4 0`,
`metronome 4 abc`, `metronome 4` and `metronome 4 120 7` end with
`os.Exit(1)`. -/
theorem main_validation_witness :
    main worldEnter ["metronome", "4", "120"] = mainBody worldEnter 4 120
      ∧ (main worldEnter ["metronome", "0", "120"]).2 = Outcome.exited 1
      ∧ (main worldEnter ["metronome", "-3", "120"]).2 = Outcome.exited 1
      ∧ (main worldEnter ["metronome", "4", "0"]).2 = Outcome.exited 1
      ∧ (main worldEnter ["metronome", "4", "abc"]).2 = Outcome.exited 1
      ∧ (main worldEnter ["metronome", "4"]).2 = Outcome.exited 1
      ∧ (main worldEnter ["metronome", "4", "120", "7"]).2 = Outcome.exited 1 := by
  refine ⟨?_, ?_, ?_, ?_, ?_, ?_, ?_⟩
  · obtain ⟨x, y, hx, hy, _, _, hm⟩ :=
      (main_validation worldEnter "metronome" ["4", "120"]).2.2 "4" "120" rfl
        (by decide) (by decide)
    have hx4 : x = 4 := by
      have : Atoi "4" = some 4 := by decide
      rw [this] at hx
      exact (Option.some.inj hx).symm
    have hy120 : y = 120 := by
      have : Atoi "120" = some 120 := by decide
      rw [this] at hy
      exact (Option.some.inj hy).symm
    rw [hm, hx4, hy120]
  · exact (main_validation worldEnter "metronome" ["0", "120"]).1.mpr
      (Or.inr ⟨"0", "120", rfl, Or.inl (by decide)⟩)
  · exact (main_validation worldEnter "metronome" ["-3", "120"]).1.mpr
      (Or.inr ⟨"-3", "120", rfl, Or.inl (by decide)⟩)
  · exact (main_validation worldEnter "metronome" ["4", "0"]).1.mpr
      (Or.inr ⟨"4", "0", rfl, Or.inr (by decide)⟩)
  · exact (main_validation worldEnter "metronome" ["4", "abc"]).1.mpr
      (Or.inr ⟨"4", "abc", rfl, Or.inr (by decide)⟩)
  · exact (main_validation worldEnter "metronome" ["4"]).1.mpr (Or.inl (by decide))
  · exact (main_validation worldEnter "metronome" ["4", "120", "7"]).1.mpr
      (Or.inl (by decide))

/-! ## Staging failures -/

theorem initSound_fails (embedded : EmbedFS) (wav : String) (fs : TempFiles) (tmp : String)
    (h : stagingFails embedded wav fs = true) :
    (∃ e, (initSound embedded wav fs tmp).err = some e)
      ∧ (initSound embedded wav fs tmp).tmp = tmp := by
  unfold stagingFails failed at h
  unfold initSound
  cases hr : embedded wav with
  | error e => simp
  | ok data =>
    cases hc : fs.createTemp with
    | error e => simp
    | ok name =>
      cases hw : fs.write with
      | error e => simp
      | ok u => simp [hr, hc, hw] at h

theorem mainBody_effects (w : World) (beatsPerMeasure bpm : Int) :
    ∃ rest, (mainBody w beatsPerMeasure bpm).1 = setup w beatsPerMeasure bpm ++ rest := by
  unfold mainBody
  simp only
  split
  · exact ⟨_, rfl⟩
  · exact ⟨_, List.append_assoc _ _ _⟩

/-- C8: when one of the three operations of an `initSound` call fails, the
call returns an error and leaves `*tmp` as it was.  When the staging of a
handle fails in `main`, `main` prints the warning and goes on: its outcome is
the outcome of the metronome loop block, never an `os.Exit`, the loop reads the
empty string for that handle, and `playClick` with that handle starts no
process, whatever `exec.LookPath` answers. -/
theorem staging_failure_nonfatal (w : World) (beatsPerMeasure bpm : Int)
    (embedded : EmbedFS) (wav : String) (fs : TempFiles) (tmp : String) :
    (stagingFails embedded wav fs = true →
        (∃ e, (initSound embedded wav fs tmp).err = some e)
          ∧ (initSound embedded wav fs tmp).tmp = tmp)
      ∧ (stagingFails w.clickHiSound clickHiWav w.tempHi = true →
          (∃ e, (stageHi w).err = some e ∧ warningOf e ∈ (mainBody w beatsPerMeasure bpm).1)
            ∧ (loopEnv w beatsPerMeasure).clickHiTmp = ""
            ∧ ∀ lookPath, playClick lookPath (loopEnv w beatsPerMeasure).clickHiTmp = none)
      ∧ (stagingFails w.clickLoSound clickLoWav w.tempLo = true →
          (∃ e, (stageLo w).err = some e ∧ warningOf e ∈ (mainBody w beatsPerMeasure bpm).1)
            ∧ (loopEnv w beatsPerMeasure).clickLoTmp = ""
            ∧ ∀ lookPath, playClick lookPath (loopEnv w beatsPerMeasure).clickLoTmp = none)
      ∧ (mainBody w beatsPerMeasure bpm).2
          = (metronomeLoop (loopEnv w beatsPerMeasure) (interval bpm) (events w)).2
      ∧ ∀ c, (mainBody w beatsPerMeasure bpm).2 ≠ Outcome.exited c := by
  obtain ⟨rest, hfx⟩ := mainBody_effects w beatsPerMeasure bpm
  refine ⟨initSound_fails embedded wav fs tmp, ?_, ?_, mainBody_outcome w beatsPerMeasure bpm,
    mainBody_not_exited w beatsPerMeasure bpm⟩
  · intro h
    obtain ⟨⟨e, he⟩, ht⟩ := initSound_fails w.clickHiSound clickHiWav w.tempHi "" h
    have henv : (loopEnv w beatsPerMeasure).clickHiTmp = "" := ht
    refine ⟨⟨e, he, ?_⟩, henv, ?_⟩
    · rw [hfx]
      have he2 : (stageHi w).err = some e := he
      simp [setup, he2, warning, warningOf]
    · intro lookPath
      rw [henv]
      rfl
  · intro h
    obtain ⟨⟨e, he⟩, ht⟩ := initSound_fails w.clickLoSound clickLoWav w.tempLo "" h
    have henv : (loopEnv w beatsPerMeasure).clickLoTmp = "" := ht
    refine ⟨⟨e, he, ?_⟩, henv, ?_⟩
    · rw [hfx]
      have he2 : (stageLo w).err = some e := he
      simp [setup, he2, warning, warningOf]
    · intro lookPath
      rw [henv]
      rfl

/-- Instance of C8: with a temporary directory that is not writable,
`metronome 4 120` runs to the stop with both handles empty, and no tick starts
a process although `aplay` is installed. -/
theorem staging_failure_nonfatal_witness :
    stagingFails worldNoTemp.clickHiSound clickHiWav worldNoTemp.tempHi = true
      ∧ (loopEnv worldNoTemp 4).clickHiTmp = ""
      ∧ (main worldNoTemp ["metronome", "4", "120"]).2 = Outcome.returned
      ∧ ∀ e ∈ (main worldNoTemp ["metronome", "4", "120"]).1, startsProcess e = false :=
  ⟨by decide,
    ((staging_failure_nonfatal worldNoTemp 4 120 worldNoTemp.clickHiSound clickHiWav
      worldNoTemp.tempHi "").2.1 (by decide)).2.1,
    by decide, by decide⟩

/-! ## The listener and a failing read -/

/-- C9 fails when `ReadString` returns an error: with standard input closed
the listener still sends on `stop`, the loop takes the stop case after the
three ticks and `main` returns. -/
theorem listener_sends_after_read_error :
    worldClosedStdin.stdin = some (Except.error "EOF")
      ∧ listener worldClosedStdin.stdin = true
      ∧ events worldClosedStdin = [Event.tick, Event.tick, Event.tick, Event.stop]
      ∧ (run env4 (State.Running 1) (events worldClosedStdin)).1 = State.Stopped
      ∧ (main worldClosedStdin ["metronome", "4", "120"]).2 = Outcome.returned := by
  refine ⟨rfl, rfl, by decide, by decide, by decide⟩

/-- C9 as the code has it: the listener sends on `stop` as soon as
`ReadString` has returned, with a line or with an error, and does not send
while the call is blocked; when the call returns, the loop takes the stop case
after the ticks that won the `select` and ends in `Stopped`; when it stays
blocked, the loop sees ticks only and stays in `Running`. -/
theorem listener_sends_when_read_returns (w : World) (env : Env) :
    (∀ r, listener (some r) = true)
      ∧ listener none = false
      ∧ (∀ r, w.stdin = some r →
          events w = List.replicate w.ticks Event.tick ++ [Event.stop]
            ∧ (run env (State.Running 1) (events w)).1 = State.Stopped)
      ∧ (w.stdin = none →
          events w = List.replicate w.ticks Event.tick
            ∧ (run env (State.Running 1) (events w)).1
              = State.Running (beatAfter env w.ticks)) := by
  refine ⟨fun _ => rfl, rfl, ?_, ?_⟩
  · intro r h
    have he : events w = List.replicate w.ticks Event.tick ++ [Event.stop] := by
      unfold events
      rw [h]
      rfl
    refine ⟨he, ?_⟩
    rw [he]
    exact (run_until_stop env (List.replicate w.ticks Event.tick) [] 1).1
  · intro h
    have he : events w = List.replicate w.ticks Event.tick := by
      unfold events
      rw [h]
      simp [listener]
    refine ⟨he, ?_⟩
    rw [he, (run_replicate env w.ticks 1).1, beatAfter_iterate]

/-! ## The ticker -/

theorem interval_pos (bpm : Int) (h : 0 < bpm) (h2 : bpm ≤ 60000) :
    Millisecond ≤ interval bpm := by
  rw [interval_eq bpm h]
  have h1 : 1 ≤ (60000 : Int) / bpm := by
    have := Int.ediv_le_ediv h h2
    rw [Int.ediv_self (by omega)] at this
    exact this
  unfold Millisecond
  omega

theorem interval_zero (bpm : Int) (h : 60000 < bpm) : interval bpm = 0 := by
  rw [interval_eq bpm (by omega), Int.ediv_eq_zero_of_lt (by norm_num) h]
  simp

/-- C10 fails on the code at `metronome 4 60001`: both arguments pass the
validation, the interval is `60000/60001 = 0`, `time.NewTicker` panics on it
and the loop is never entered: after the setup only the deferred functions
run. -/
theorem ticker_panics_at_60001 (w : World) :
    validArg "4" = true ∧ validArg "60001" = true
      ∧ interval 60001 = 0
      ∧ main w ["metronome", "4", "60001"]
        = (setup w 4 60001 ++ deferred (stageHi w).tmp (stageLo w).tmp,
            Outcome.panicked "non-positive interval for NewTicker") := by
  have h4 : Atoi "4" = some 4 := by decide
  have hb : Atoi "60001" = some 60001 := by decide
  have hi : interval 60001 = 0 := by decide
  refine ⟨by decide, by decide, hi, ?_⟩
  obtain ⟨x, y, hx, hy, _, _, hm⟩ := (main_two_args w "metronome" "4" "60001").1
    (by decide) (by decide)
  rw [h4] at hx
  rw [hb] at hy
  obtain rfl : x = 4 := (Option.some.inj hx).symm
  obtain rfl : y = 60001 := (Option.some.inj hy).symm
  rw [hm]
  unfold mainBody
  simp [hi, metronomeLoop]

end Metronome
